import Mathlib

/-!
Verification of the protocol/transport/tool-dispatch core of the
obsidian-claude-code-mcp plugin, as a shallow embedding in Lean 4.

The embedding follows the TypeScript sources:
  - src/mcp/types.ts           (envelope shapes)
  - src/shared/tool-registry.ts (ToolRegistry)
  - src/mcp/handlers.ts        (McpHandlers dispatch)
  - src/mcp/server.ts          (WebSocket transport McpServer)
  - src/mcp/http-server.ts     (McpHttpServer sessions and POST handling)
  - src/mcp/dual-server.ts     (McpDualServer orchestration)
  - src/claude-config.ts       (config directory resolution)

JavaScript objects are modelled by the inductive `JVal`; a missing field
(`undefined`) is modelled by `Option JVal = none`.  JavaScript `Map`s are
modelled by insertion-ordered association lists with `Map.set` semantics
(replace in place, append if absent).  Code that throws is modelled with
`Except`.
-/

set_option autoImplicit false

namespace ObsidianMcp

/-- A JSON-like JavaScript value. -/
inductive JVal where
  | null
  | bool (b : Bool)
  | num (n : Int)
  | str (s : String)
  | arr (xs : List JVal)
  | obj (fields : List (String × JVal))

/-- Field lookup in an object's field list (first binding wins, as in a JS
object literal read). -/
def lookupField : List (String × JVal) → String → Option JVal
  | [], _ => none
  | (k, v) :: rest, key => if k = key then some v else lookupField rest key

/-- `v.key` on a JavaScript value: `undefined` (`none`) unless `v` is an
object with that field. -/
def getField : JVal → String → Option JVal
  | .obj fields, key => lookupField fields key
  | _, _ => none

/-- `v?.key` where `v` itself may be `undefined`. -/
def getFieldOpt : Option JVal → String → Option JVal
  | some v, key => getField v key
  | none, _ => none

/-- JavaScript truthiness of a possibly-`undefined` value. -/
def truthy : Option JVal → Bool
  | none => false
  | some .null => false
  | some (.bool b) => b
  | some (.num n) => decide (n ≠ 0)
  | some (.str s) => decide (s ≠ "")
  | some (.arr _) => true
  | some (.obj _) => true

/-- `m.key` is present (not `undefined`). -/
def hasField (m : JVal) (k : String) : Bool := (getField m k).isSome

/-- `m.key` is truthy. -/
def truthyField (m : JVal) (k : String) : Bool := truthy (getField m k)

mutual
/-- String interpolation of a JavaScript value, as in a template literal. -/
def jsDisplayV : JVal → String
  | .null => "null"
  | .bool true => "true"
  | .bool false => "false"
  | .num n => toString n
  | .str s => s
  | .arr xs => String.intercalate "," (jsDisplayList xs)
  | .obj _ => "[object Object]"

def jsDisplayList : List JVal → List String
  | [] => []
  | x :: xs => jsDisplayV x :: jsDisplayList xs
end

/-- String interpolation of a possibly-`undefined` value. -/
def jsDisplay : Option JVal → String
  | none => "undefined"
  | some v => jsDisplayV v

/-! JavaScript `Map` operations over insertion-ordered association lists.
`Map.set` replaces the value in place when the key exists, otherwise
appends; `Map.get` returns the bound value; `Map.delete` removes the
entry. -/

def mapSet {V : Type} : List (String × V) → String → V → List (String × V)
  | [], k, v => [(k, v)]
  | (k', v') :: rest, k, v =>
    if k' = k then (k, v) :: rest else (k', v') :: mapSet rest k v

def mapGet {V : Type} : List (String × V) → String → Option V
  | [], _ => none
  | (k', v') :: rest, k => if k' = k then some v' else mapGet rest k

def mapHas {V : Type} (m : List (String × V)) (k : String) : Bool :=
  (mapGet m k).isSome

def mapDelete {V : Type} : List (String × V) → String → List (String × V)
  | [], _ => []
  | (k', v') :: rest, k => if k' = k then rest else (k', v') :: mapDelete rest k

/-! ## Envelopes (src/mcp/types.ts) -/

/-- A JSON-RPC id: `string | number`. -/
inductive RId where
  | str (s : String)
  | num (n : Int)
deriving DecidableEq, Repr

/-- `McpRequest`: jsonrpc tag left implicit, `params` optional. -/
structure McpRequest where
  id : RId
  method : String
  params : Option JVal

/-- The payload a handler passes to `reply`:
`Omit<McpResponse, "jsonrpc" | "id">`, i.e. a result or an error. -/
inductive ReplyMsg where
  | result (v : JVal)
  | error (code : Int) (message : String)

/-- A full `McpResponse` as assembled by a transport reply closure. -/
structure McpResponse where
  id : RId
  msg : ReplyMsg

/-! ## Tool registry (src/shared/tool-registry.ts) -/

/-- `Tool` from types.ts: the shape exposed to clients. -/
structure Tool where
  name : String
  description : String
  inputSchema : JVal

/-- `ToolDefinition`: a `Tool` plus the internal-only category tag. -/
structure ToolDefinition where
  toTool : Tool
  category : String

/-- The definition's name field. -/
def ToolDefinition.name (d : ToolDefinition) : String := d.toTool.name

/-- `ToolImplementation`.  The async handler receives `args` and a `reply`
callback; it is modelled denotationally as the pair of the list of
messages it passes to `reply` and an optional thrown exception message. -/
structure ToolImplementation where
  name : String
  handler : Option JVal → List ReplyMsg × Option String

/-- `ToolRegistry`: the private `tools` Map keyed by tool name. -/
structure ToolRegistry where
  tools : List (String × ToolDefinition × ToolImplementation)

/-- The empty registry (`new ToolRegistry()`). -/
def ToolRegistry.empty : ToolRegistry := ⟨[]⟩

/-- `ToolRegistry.register`: throws when the definition and implementation
names differ, otherwise `this.tools.set(definition.name, ...)`. -/
def ToolRegistry.register (r : ToolRegistry) (d : ToolDefinition)
    (i : ToolImplementation) : Except String ToolRegistry :=
  if d.name ≠ i.name then
    .error ("Tool definition name \"" ++ d.name ++
      "\" doesn\x27t match implementation name \"" ++ i.name ++ "\"")
  else
    .ok ⟨mapSet r.tools d.name (d, i)⟩

/-- The `this.tools.get(name)` lookup of `handleToolCall`: only a string
`params.name` can hit an entry of the string-keyed Map. -/
def ToolRegistry.toolCallEntry (r : ToolRegistry) (req : McpRequest) :
    Option (ToolDefinition × ToolImplementation) :=
  match getFieldOpt req.params "name" with
  | some (.str n) => mapGet r.tools n
  | _ => none

/-- `ToolRegistry.handleToolCall`: destructures `req.params`, looks the
name up in the Map, answers a successful-shaped "not registered" result on
a miss, and otherwise runs the handler, converting a thrown exception into
a -32603 error reply. -/
def ToolRegistry.handleToolCall (r : ToolRegistry) (req : McpRequest) :
    List ReplyMsg :=
  match r.toolCallEntry req with
  | none =>
    [.result (.obj [("content", .arr [.obj
      [("type", .str "text"),
       ("text", .str ("Tool \x27" ++ jsDisplay (getFieldOpt req.params "name") ++
         "\x27 is not registered"))]])])]
  | some (_, impl) =>
    (impl.handler (getFieldOpt req.params "arguments")).1 ++
      (match (impl.handler (getFieldOpt req.params "arguments")).2 with
       | none => []
       | some e =>
         [.error (-32603) ("failed to call tool " ++
           jsDisplay (getFieldOpt req.params "name") ++ ": " ++ e)])

/-- Serialize a `Tool` for a tools/list reply. -/
def Tool.toJVal (t : Tool) : JVal :=
  .obj [("name", .str t.name), ("description", .str t.description),
        ("inputSchema", t.inputSchema)]

/-- `ToolRegistry.getToolDefinitions`: iterate the Map's values, filter by
the optional category, and strip the category field. -/
def ToolRegistry.getToolDefinitions (r : ToolRegistry)
    (category : Option String) : List Tool :=
  r.tools.filterMap (fun e =>
    if category = none ∨ category = some e.2.1.category then
      some e.2.1.toTool
    else none)

/-- `ToolRegistry.getRegisteredToolNames`: the Map's keys. -/
def ToolRegistry.getRegisteredToolNames (r : ToolRegistry) : List String :=
  r.tools.map Prod.fst

/-- `ToolRegistry.hasImplementation`. -/
def ToolRegistry.hasImplementation (r : ToolRegistry) (name : String) : Bool :=
  mapHas r.tools name

/-! ## IDE handler (src/ide/ide-handler.ts) -/

/-- `IdeHandler.isIdeMethod`. -/
def isIdeMethod (m : String) : Bool :=
  m = "ide_connected" ∨ m = "notifications/initialized"

/-- `IdeHandler.handleRequest`: returns whether it handled the method,
together with the replies it emitted.  Both IDE methods are treated as
notifications: they are consumed (`true`) without calling `reply`. -/
def ideHandleRequest (req : McpRequest) : Bool × List ReplyMsg :=
  if req.method = "ide_connected" then (true, [])
  else if req.method = "notifications/initialized" then (true, [])
  else (false, [])

/-! ## Dispatcher (src/mcp/handlers.ts) -/

/-- Which transport a request arrived on; selects the tool registry. -/
inductive Source where
  | ws
  | http
deriving DecidableEq

/-- The external collaborators reached from the dispatcher: the legacy
FileTools handlers and the workspace-info handler.  Each is modelled
denotationally as the list of messages it passes to `reply`. -/
structure CollabHandlers where
  readFile : Option JVal → List ReplyMsg
  writeFile : Option JVal → List ReplyMsg
  getOpenFiles : Option JVal → List ReplyMsg
  listFiles : Option JVal → List ReplyMsg
  getCurrentFile : Option JVal → List ReplyMsg
  getWorkspaceInfo : Option JVal → List ReplyMsg

/-- The static result of `handleInitialize` (handlers.ts lines 130-153). -/
def initResult : JVal :=
  .obj [("protocolVersion", .str "2024-11-05"),
        ("capabilities", .obj
          [("roots", .obj [("listChanged", .bool false)]),
           ("tools", .obj [("listChanged", .bool false)]),
           ("resources", .obj
             [("subscribe", .bool false), ("listChanged", .bool false)]),
           ("prompts", .obj [("listChanged", .bool false)])]),
        ("serverInfo", .obj
          [("name", .str "obsidian-claude-code-mcp"),
           ("version", .str "1.0.0")])]

/-- The `switch (req.method)` body of `handleRequestGeneric`. -/
def dispatchSwitch (collab : CollabHandlers) (wsReg httpReg : ToolRegistry)
    (req : McpRequest) (source : Source) : List ReplyMsg :=
  if req.method = "initialize" then [.result initResult]
  else if req.method = "tools/list" then
    [.result (.obj [("tools",
      .arr (((if source = .ws then wsReg else httpReg).getToolDefinitions
        none).map Tool.toJVal))])]
  else if req.method = "prompts/list" then
    [.result (.obj [("prompts", .arr [])])]
  else if req.method = "ping" then [.result (.str "pong")]
  else if req.method = "readFile" then collab.readFile req.params
  else if req.method = "writeFile" then collab.writeFile req.params
  else if req.method = "getOpenFiles" then collab.getOpenFiles req.params
  else if req.method = "listFiles" then collab.listFiles req.params
  else if req.method = "getCurrentFile" then collab.getCurrentFile req.params
  else if req.method = "getWorkspaceInfo" then
    collab.getWorkspaceInfo req.params
  else if req.method = "tools/call" then
    (if source = .ws then wsReg else httpReg).handleToolCall req
  else if req.method = "resources/list" then
    [.result (.obj [("resources", .arr [])])]
  else [.error (-32601) "method not implemented"]

/-- `McpHandlers.handleRequestGeneric`: consult the IDE sub-handler first
and stop if it handled the method, otherwise run the method switch. -/
def handleRequestGeneric (collab : CollabHandlers)
    (wsReg httpReg : ToolRegistry) (req : McpRequest) (source : Source) :
    List ReplyMsg :=
  if isIdeMethod req.method then
    let r := ideHandleRequest req
    r.2 ++ (if r.1 then [] else dispatchSwitch collab wsReg httpReg req source)
  else dispatchSwitch collab wsReg httpReg req source

/-- `McpHandlers.handleRequest` (WebSocket entry): the reply closure
stamps each message with the request's id. -/
def handleRequest (collab : CollabHandlers) (wsReg httpReg : ToolRegistry)
    (req : McpRequest) : List McpResponse :=
  (handleRequestGeneric collab wsReg httpReg req .ws).map
    (fun m => ⟨req.id, m⟩)

/-- `McpHandlers.handleHttpRequest` (HTTP entry): same dispatch with the
HTTP registry selected; the transport's reply closure stamps the id. -/
def handleHttpRequest (collab : CollabHandlers)
    (wsReg httpReg : ToolRegistry) (req : McpRequest) : List McpResponse :=
  (handleRequestGeneric collab wsReg httpReg req .http).map
    (fun m => ⟨req.id, m⟩)

/-! ## WebSocket transport (src/mcp/server.ts) -/

/-- The options object `McpServer.start` passes to `new WebSocketServer`
(server.ts line 24): only `port: 0` is supplied, no `host`. -/
structure WebSocketServerOptions where
  port : Nat
  host : Option String
deriving DecidableEq, Repr

/-- The literal options in the source: `new WebSocketServer({ port: 0 })`. -/
def mcpServerListenOptions : WebSocketServerOptions :=
  { port := 0, host := none }

/-- Modelled from the spec (and docs/PROTOCOL.md, which requires
`host: 'localhost'` so the server binds loopback only): the options the
specification prescribes for the listener. -/
def specListenOptions : WebSocketServerOptions :=
  { port := 0, host := some "localhost" }

/-- The connected-clients collection of one `McpServer`, clients named by
numeric handles. -/
structure WsServerState where
  connectedClients : List Nat
deriving DecidableEq, Repr

/-- Everything `McpServer.handleMessage` can do with one incoming frame:
the new server state, the requests forwarded to `config.onMessage`, the
bytes written back on the socket, and whether the connection was closed. -/
structure WsHandleOutcome where
  state : WsServerState
  forwarded : List McpRequest
  sent : List String
  connectionClosed : Bool

/-- `McpServer.handleMessage`: parse the frame as JSON; on failure return
silently; on success forward the envelope to `config.onMessage`.
`jsonParse` abstracts `JSON.parse` (with `none` for a thrown SyntaxError). -/
def McpServer.handleMessage (jsonParse : String → Option McpRequest)
    (st : WsServerState) (raw : String) : WsHandleOutcome :=
  match jsonParse raw with
  | none => ⟨st, [], [], false⟩
  | some req => ⟨st, [req], [], false⟩

/-! ## Streaming-HTTP transport (src/mcp/http-server.ts) -/

/-- The character list `s` starts with the character list `pat`. -/
def charsStartWith : List Char → List Char → Bool
  | _, [] => true
  | [], _ :: _ => false
  | c :: cs, p :: ps => c = p && charsStartWith cs ps

/-- The character list `pat` occurs somewhere inside `s`. -/
def charsContain : List Char → List Char → Bool
  | [], pat => charsStartWith [] pat
  | c :: rest, pat => charsStartWith (c :: rest) pat || charsContain rest pat

/-- `s.includes(pat)`: `pat` occurs as a substring of `s`. -/
def strIncludes (s pat : String) : Bool := charsContain s.data pat.data

/-- The mutable state of one `McpHttpServer`: the session table (session
id to creation time), the session ids of the live SSE streams, and the
advisory event id counter. -/
structure HttpState where
  sessions : List (String × Nat)
  activeStreams : List String
  eventIdCounter : Nat

/-- A server-sent event written on a stream. -/
inductive SSEEvent where
  | endpoint (data : String)
  | message (id : Nat) (data : String)
  | ping (data : String)

/-- Outcome of `handleSSEConnection`: HTTP status, new server state, and
the events written on the fresh stream. -/
structure SSEConnectOutcome where
  status : Nat
  state : HttpState
  events : List SSEEvent

/-- `McpHttpServer.handleSSEConnection`: reject without the SSE accept
header; otherwise mint the session (`sid` abstracts `crypto.randomUUID()`,
`now` abstracts `Date.now()`), register the stream, and emit the
`endpoint` event carrying the POST path with the session id. -/
def McpHttpServer.handleSSEConnection (st : HttpState) (accept : String)
    (sid : String) (now : Nat) : SSEConnectOutcome :=
  if ¬ strIncludes accept "text/event-stream" then ⟨406, st, []⟩
  else
    ⟨200,
     { sessions := mapSet st.sessions sid now,
       activeStreams := st.activeStreams ++ [sid],
       eventIdCounter := st.eventIdCounter },
     [.endpoint ("/messages?session_id=" ++ sid)]⟩

/-- The `req.on("close")` teardown of a stream: delete the stream and
delete the session from the table. -/
def McpHttpServer.streamDisconnect (st : HttpState) (sid : String) :
    HttpState :=
  { sessions := mapDelete st.sessions sid,
    activeStreams := st.activeStreams.erase sid,
    eventIdCounter := st.eventIdCounter }

/-- The messages of a POST body: an array is taken as-is, anything else is
wrapped singleton (`Array.isArray(parsed) ? parsed : [parsed]`). -/
def bodyMessages : JVal → List JVal
  | .arr xs => xs
  | v => [v]

/-- An envelope that counts as a request for the `hasRequests` test:
`msg.id !== undefined && msg.method !== undefined`. -/
def isRequestEnvelope (m : JVal) : Bool :=
  hasField m "id" && hasField m "method"

/-- Outcome of `handleMessages`: the HTTP status of the POST response, the
server state afterwards, the envelopes handed to `onMessage` with a no-op
reply (fire-and-forget notifications: no stream event can ever result),
and the envelopes handed to `onMessage` with an SSE-bound reply closure
(requests: their replies become `message` events). -/
structure PostOutcome where
  status : Nat
  state : HttpState
  notificationsProcessed : List JVal
  requestsDispatched : List JVal

/-- `McpHttpServer.handleMessages`: resolve the session id from the query
parameter (missing or unknown: 404); parse the body (invalid JSON: 400,
with `none` abstracting a `JSON.parse` throw); with no request envelope
present, process method-bearing envelopes as notifications and answer
202; with a request present but no live stream, answer 410; otherwise
dispatch every envelope having a truthy method and a defined id and
answer 202. -/
def McpHttpServer.handleMessages (st : HttpState)
    (sessionIdParam : Option String) (body : Option JVal) : PostOutcome :=
  match sessionIdParam with
  | none => ⟨404, st, [], []⟩
  | some sid =>
    if sid = "" ∨ ¬ mapHas st.sessions sid then ⟨404, st, [], []⟩
    else
      match body with
      | none => ⟨400, st, [], []⟩
      | some parsed =>
        let messages := bodyMessages parsed
        let hasRequests := messages.any isRequestEnvelope
        if ¬ hasRequests then
          ⟨202, st, messages.filter (fun m => truthyField m "method"), []⟩
        else if sid ∉ st.activeStreams then ⟨410, st, [], []⟩
        else
          ⟨202, st, [],
           messages.filter
             (fun m => truthyField m "method" && hasField m "id")⟩

/-! ## Orchestrator (src/mcp/dual-server.ts) -/

/-- A JavaScript `Error` as inspected by the dual server's catch block. -/
structure JsError where
  name : String
  message : String
deriving DecidableEq, Repr

/-- The classification in the HTTP catch block of `McpDualServer.start`:
`error.name === 'PortInUseError' || error.name === 'PermissionError' ||
error.message?.includes('EADDRINUSE') ||
error.message?.includes('EACCES')`. -/
def isPortRelatedError (e : JsError) : Bool :=
  e.name = "PortInUseError" || e.name = "PermissionError" ||
  strIncludes e.message "EADDRINUSE" || strIncludes e.message "EACCES"

/-- The `DualServerConfig` fields `start` consults. -/
structure DualServerConfig where
  enableWebSocket : Option Bool
  enableHttp : Option Bool
  httpPort : Option Nat
deriving DecidableEq, Repr

/-- `this.config.httpPort || 22360` (0 and undefined are falsy). -/
def effectiveHttpPort (cfg : DualServerConfig) : Nat :=
  match cfg.httpPort with
  | some p => if p = 0 then 22360 else p
  | none => 22360

/-- The bind outcomes of the two subordinate servers: `wsStart` is the
result of `McpServer.start()`, `httpStart p` the result of
`McpHttpServer.start(p)` (which rejects with the listen error, e.g.
EADDRINUSE, when the port cannot be bound). -/
structure StartEnv where
  wsStart : Except JsError Nat
  httpStart : Nat → Except JsError Nat

/-- Outcome of `McpDualServer.start`: the port of the WebSocket server if
it was started (and is still running — nothing in `start` ever tears it
down), and either the returned aggregate wsPort/httpPort pair or the
re-thrown error. -/
structure DualStartOutcome where
  wsRunning : Option Nat
  returned : Except JsError (Option Nat × Option Nat)
deriving Repr

/-- `McpDualServer.start` (dual-server.ts lines 117-178): the WebSocket
half catches any bind error and continues; the HTTP half catches its
error but re-throws it when it is port-related. -/
def McpDualServer.start (cfg : DualServerConfig) (env : StartEnv) :
    DualStartOutcome :=
  let ws : Option Nat :=
    if cfg.enableWebSocket ≠ some false then
      match env.wsStart with
      | .ok p => some p
      | .error _ => none
    else none
  if cfg.enableHttp ≠ some false then
    match env.httpStart (effectiveHttpPort cfg) with
    | .ok p => ⟨ws, .ok (ws, some p)⟩
    | .error e =>
      if isPortRelatedError e then ⟨ws, .error e⟩
      else ⟨ws, .ok (ws, none)⟩
  else ⟨ws, .ok (ws, none)⟩

/-! ## Configuration directory and lock file
(src/claude-config.ts and src/mcp/server.ts) -/

/-- The pieces of the process environment and file system the two path
computations read. -/
structure ConfigEnv where
  claudeConfigDir : Option String
  xdgConfigHome : Option String
  envHome : Option String
  envUserProfile : Option String
  homedir : String
  isWindows : Bool
  appData : Option String
  dirExists : String → Bool

/-- `path.join` of two segments (separator fixed to `/`; the claims under
study never hinge on the platform separator). -/
def pathJoin (a b : String) : String := a ++ "/" ++ b

/-- `getClaudeConfigDir` (claude-config.ts lines 14-80): the env override
wins; otherwise the modern directory (APPDATA/claude on Windows,
XDG_CONFIG_HOME/claude or ~/.config/claude elsewhere) if it exists, else
the legacy ~/.claude if it exists, else the modern one. -/
def getClaudeConfigDir (env : ConfigEnv) : String :=
  match env.claudeConfigDir with
  | some d => d
  | none =>
    let homeDir := env.homedir
    if env.isWindows then
      let appDataDir :=
        env.appData.getD (pathJoin (pathJoin homeDir "AppData") "Roaming")
      let modern := pathJoin appDataDir "claude"
      let legacy := pathJoin homeDir ".claude"
      if env.dirExists modern then modern
      else if env.dirExists legacy then legacy
      else modern
    else
      let xdg := env.xdgConfigHome.getD (pathJoin homeDir ".config")
      let modern := pathJoin xdg "claude"
      let legacy := pathJoin homeDir ".claude"
      if env.dirExists modern then modern
      else if env.dirExists legacy then legacy
      else modern

/-- `getClaudeIdeDir` (claude-config.ts lines 86-88). -/
def getClaudeIdeDir (env : ConfigEnv) : String :=
  pathJoin (getClaudeConfigDir env) "ide"

/-- The path `McpServer.createLockFile` actually writes (server.ts lines
86-94): `path.join(process.env.HOME || process.env.USERPROFILE || ".",
".claude", "ide", port + ".lock")`, with no use of the config directory
resolution. -/
def createLockFilePath (env : ConfigEnv) (port : Nat) : String :=
  let ideDir :=
    pathJoin
      (pathJoin (env.envHome.getD (env.envUserProfile.getD ".")) ".claude")
      "ide"
  pathJoin ideDir (toString port ++ ".lock")

/-- Modelled from the spec: the discovery record belongs at
`<config-dir>/ide/<port>.lock` with the config directory resolved by
`getClaudeConfigDir` (this is also what `getClaudeIdeDir`'s own doc
comment and the settings UI display promise). -/
def specLockFilePath (env : ConfigEnv) (port : Nat) : String :=
  pathJoin (getClaudeIdeDir env) (toString port ++ ".lock")

/-! ## Helper lemmas about the Map model -/

theorem mapSet_mapSet_same {V : Type} (l : List (String × V)) (k : String)
    (v1 v2 : V) : mapSet (mapSet l k v1) k v2 = mapSet l k v2 := by
  induction l with
  | nil => simp [mapSet]
  | cons hd tl ih =>
    obtain ⟨k', v'⟩ := hd
    by_cases h : k' = k
    · subst h; simp [mapSet]
    · simp [mapSet, h, ih]

theorem mem_fst_mapSet {V : Type} (l : List (String × V)) (k a : String)
    (v : V) (h : a ∈ (mapSet l k v).map Prod.fst) :
    a = k ∨ a ∈ l.map Prod.fst := by
  induction l with
  | nil =>
    have h' : a ∈ [k] := by simpa [mapSet] using h
    exact Or.inl (by simpa using h')
  | cons hd tl ih =>
    obtain ⟨k', v'⟩ := hd
    by_cases hk : k' = k
    · have e : mapSet ((k', v') :: tl) k v = (k, v) :: tl := by
        simp [mapSet, hk]
      rw [e, List.map_cons] at h
      rcases List.mem_cons.mp h with h1 | h1
      · exact Or.inl h1
      · exact Or.inr (by rw [List.map_cons]; exact List.mem_cons.mpr (Or.inr h1))
    · have e : mapSet ((k', v') :: tl) k v = (k', v') :: mapSet tl k v := by
        simp [mapSet, hk]
      rw [e, List.map_cons] at h
      rcases List.mem_cons.mp h with h1 | h1
      · exact Or.inr (by rw [List.map_cons]; exact List.mem_cons.mpr (Or.inl h1))
      · rcases ih h1 with h2 | h2
        · exact Or.inl h2
        · exact Or.inr
            (by rw [List.map_cons]; exact List.mem_cons.mpr (Or.inr h2))

theorem nodup_fst_mapSet {V : Type} (l : List (String × V)) (k : String)
    (v : V) (h : (l.map Prod.fst).Nodup) :
    ((mapSet l k v).map Prod.fst).Nodup := by
  induction l with
  | nil => simp [mapSet]
  | cons hd tl ih =>
    obtain ⟨k', v'⟩ := hd
    simp only [List.map_cons, List.nodup_cons] at h
    by_cases hk : k' = k
    · subst hk
      simpa [mapSet] using h
    · simp only [mapSet, hk, if_false, List.map_cons, List.nodup_cons]
      refine ⟨fun hmem => ?_, ih h.2⟩
      rcases mem_fst_mapSet tl k k' v hmem with h' | h'
      · exact hk h'
      · exact h.1 h'

theorem mapGet_mem {V : Type} (l : List (String × V)) (k : String) (v : V)
    (h : mapGet l k = some v) : (k, v) ∈ l := by
  induction l with
  | nil => simp [mapGet] at h
  | cons hd tl ih =>
    obtain ⟨k', v'⟩ := hd
    by_cases hk : k' = k
    · subst hk
      simp [mapGet] at h
      simp [h]
    · simp [mapGet, hk] at h
      exact List.mem_cons_of_mem _ (ih h)

theorem mapGet_eq_none_of_not_mem {V : Type} (l : List (String × V))
    (k : String) (h : k ∉ l.map Prod.fst) : mapGet l k = none := by
  induction l with
  | nil => rfl
  | cons hd tl ih =>
    obtain ⟨k', v'⟩ := hd
    simp only [List.map_cons, List.mem_cons] at h
    push_neg at h
    have hne : k' ≠ k := fun hkk => h.1 hkk.symm
    simp [mapGet, hne, ih h.2]

theorem mapGet_mapDelete_self {V : Type} (l : List (String × V))
    (k : String) (h : (l.map Prod.fst).Nodup) :
    mapGet (mapDelete l k) k = none := by
  induction l with
  | nil => rfl
  | cons hd tl ih =>
    obtain ⟨k', v'⟩ := hd
    simp only [List.map_cons, List.nodup_cons] at h
    by_cases hk : k' = k
    · subst hk
      simp only [mapDelete, if_pos rfl]
      exact mapGet_eq_none_of_not_mem tl k' h.1
    · simp [mapDelete, mapGet, hk, ih h.2]

/-! ## Claim C7 -/

/-- C7: `ToolRegistry.register` with a definition and an implementation
whose name fields differ throws (with the source's exact message), and no
registry state results from the failed call, so the mismatched pair is
never inserted and can never serve a request. -/
theorem register_name_mismatch_rejected (r : ToolRegistry)
    (d : ToolDefinition) (i : ToolImplementation) (h : d.name ≠ i.name) :
    r.register d i = .error ("Tool definition name \"" ++ d.name ++
      "\" doesn\x27t match implementation name \"" ++ i.name ++ "\"") ∧
    ∀ r' : ToolRegistry, r.register d i ≠ .ok r' := by
  refine ⟨by simp [ToolRegistry.register, h], fun r' hc => ?_⟩
  simp [ToolRegistry.register, h] at hc

theorem register_name_mismatch_rejected_witness :
    (⟨⟨"alpha", "a tool", .obj []⟩, "general"⟩ : ToolDefinition).name ≠
      (⟨"beta", fun _ => ([], none)⟩ : ToolImplementation).name ∧
    (ToolRegistry.empty.register ⟨⟨"alpha", "a tool", .obj []⟩, "general"⟩
        ⟨"beta", fun _ => ([], none)⟩ =
      .error ("Tool definition name \"alpha\"" ++
        " doesn\x27t match implementation name \"beta\"") ∧
     ∀ r' : ToolRegistry,
       ToolRegistry.empty.register ⟨⟨"alpha", "a tool", .obj []⟩, "general"⟩
         ⟨"beta", fun _ => ([], none)⟩ ≠ .ok r') :=
  ⟨by decide,
   register_name_mismatch_rejected ToolRegistry.empty
     ⟨⟨"alpha", "a tool", .obj []⟩, "general"⟩
     ⟨"beta", fun _ => ([], none)⟩ (by decide)⟩

/-! ## Claim C8 -/

/-- C8: a `tools/call` whose `params.name` is a string not registered in
the tool table is answered by exactly one successful-shaped reply (a
result, not an error) whose content carries the human-readable
"not registered" text. -/
theorem toolcall_unregistered_in_band (r : ToolRegistry) (req : McpRequest)
    (n : String) (hname : getFieldOpt req.params "name" = some (.str n))
    (hmiss : mapGet r.tools n = none) :
    r.handleToolCall req =
      [.result (.obj [("content", .arr [.obj
        [("type", .str "text"),
         ("text", .str ("Tool \x27" ++ n ++ "\x27 is not registered"))]])])] := by
  simp [ToolRegistry.handleToolCall, ToolRegistry.toolCallEntry, hname,
    hmiss, jsDisplay, jsDisplayV]

theorem toolcall_unregistered_in_band_witness :
    getFieldOpt (some (.obj [("name", .str "missing_tool")])) "name" =
      some (.str "missing_tool") ∧
    mapGet ToolRegistry.empty.tools "missing_tool" = none ∧
    ToolRegistry.empty.handleToolCall
        ⟨.num 7, "tools/call", some (.obj [("name", .str "missing_tool")])⟩ =
      [.result (.obj [("content", .arr [.obj
        [("type", .str "text"),
         ("text", .str ("Tool \x27missing_tool\x27 is not registered"))]])])] :=
  ⟨rfl, rfl,
   toolcall_unregistered_in_band ToolRegistry.empty
     ⟨.num 7, "tools/call", some (.obj [("name", .str "missing_tool")])⟩
     "missing_tool" rfl rfl⟩

/-! ## Claim C10 -/

/-- C10: registering a second well-paired (definition, implementation)
pair under an already-used name succeeds and is last-write-wins:
registering `(d1, i1)` and then `(d2, i2)` with equal names yields exactly
the registry obtained by registering `(d2, i2)` alone, and registration
preserves the no-duplicate-names property of the tool table. -/
theorem register_last_write_wins (r : ToolRegistry)
    (d1 d2 : ToolDefinition) (i1 i2 : ToolImplementation)
    (h1 : d1.name = i1.name) (h2 : d2.name = i2.name)
    (hn : d1.name = d2.name) :
    ∃ r1 r2 : ToolRegistry,
      r.register d1 i1 = .ok r1 ∧ r1.register d2 i2 = .ok r2 ∧
      r.register d2 i2 = .ok r2 ∧
      (r.getRegisteredToolNames.Nodup → r2.getRegisteredToolNames.Nodup) := by
  refine ⟨⟨mapSet r.tools d1.name (d1, i1)⟩,
          ⟨mapSet r.tools d2.name (d2, i2)⟩,
          by simp [ToolRegistry.register, h1], ?_,
          by simp [ToolRegistry.register, h2], fun hnd => ?_⟩
  · unfold ToolRegistry.register
    rw [if_neg (by simp [h2])]
    rw [← hn, mapSet_mapSet_same]
  · exact nodup_fst_mapSet r.tools d2.name (d2, i2) hnd

theorem register_last_write_wins_witness :
    (⟨⟨"tool_x", "first", .obj []⟩, "general"⟩ : ToolDefinition).name =
      (⟨"tool_x", fun _ => ([], none)⟩ : ToolImplementation).name ∧
    (⟨⟨"tool_x", "second", .obj []⟩, "general"⟩ : ToolDefinition).name =
      (⟨"tool_x", fun _ => ([.result .null], none)⟩ :
        ToolImplementation).name ∧
    (⟨⟨"tool_x", "first", .obj []⟩, "general"⟩ : ToolDefinition).name =
      (⟨⟨"tool_x", "second", .obj []⟩, "general"⟩ : ToolDefinition).name ∧
    ∃ r1 r2 : ToolRegistry,
      ToolRegistry.empty.register ⟨⟨"tool_x", "first", .obj []⟩, "general"⟩
          ⟨"tool_x", fun _ => ([], none)⟩ = .ok r1 ∧
      r1.register ⟨⟨"tool_x", "second", .obj []⟩, "general"⟩
          ⟨"tool_x", fun _ => ([.result .null], none)⟩ = .ok r2 ∧
      ToolRegistry.empty.register ⟨⟨"tool_x", "second", .obj []⟩, "general"⟩
          ⟨"tool_x", fun _ => ([.result .null], none)⟩ = .ok r2 ∧
      (ToolRegistry.empty.getRegisteredToolNames.Nodup →
        r2.getRegisteredToolNames.Nodup) :=
  ⟨rfl, rfl, rfl,
   register_last_write_wins ToolRegistry.empty
     ⟨⟨"tool_x", "first", .obj []⟩, "general"⟩
     ⟨⟨"tool_x", "second", .obj []⟩, "general"⟩
     ⟨"tool_x", fun _ => ([], none)⟩
     ⟨"tool_x", fun _ => ([.result .null], none)⟩ rfl rfl rfl⟩

/-! ## Claim C1 -/

/-- A collaborator handler calls `reply` exactly once on every input
(the FileTools and workspace-info handlers all follow the
try-reply-catch-reply pattern). -/
def repliesOnce (f : Option JVal → List ReplyMsg) : Prop :=
  ∀ p, (f p).length = 1

/-- All six external collaborator handlers reply exactly once. -/
def CollabHandlers.wellBehaved (c : CollabHandlers) : Prop :=
  repliesOnce c.readFile ∧ repliesOnce c.writeFile ∧
  repliesOnce c.getOpenFiles ∧ repliesOnce c.listFiles ∧
  repliesOnce c.getCurrentFile ∧ repliesOnce c.getWorkspaceInfo

/-- Every registered tool handler either replies exactly once without
throwing, or throws before replying (the registry then emits exactly one
internal-error reply). -/
def ToolRegistry.handlersWellBehaved (r : ToolRegistry) : Prop :=
  ∀ e ∈ r.tools, ∀ args : Option JVal,
    ((e.2.2.handler args).1.length = 1 ∧ (e.2.2.handler args).2 = none) ∨
    ((e.2.2.handler args).1 = [] ∧ ((e.2.2.handler args).2).isSome = true)

theorem toolCallEntry_some (r : ToolRegistry) (req : McpRequest)
    (di : ToolDefinition × ToolImplementation)
    (h : r.toolCallEntry req = some di) : ∃ n, (n, di) ∈ r.tools := by
  unfold ToolRegistry.toolCallEntry at h
  cases hv : getFieldOpt req.params "name" with
  | none => rw [hv] at h; exact absurd h (by simp)
  | some v =>
    cases v with
    | str n => rw [hv] at h; exact ⟨n, mapGet_mem r.tools n di h⟩
    | null => rw [hv] at h; exact absurd h (by simp)
    | bool b => rw [hv] at h; exact absurd h (by simp)
    | num m => rw [hv] at h; exact absurd h (by simp)
    | arr xs => rw [hv] at h; exact absurd h (by simp)
    | obj fs => rw [hv] at h; exact absurd h (by simp)

theorem handleToolCall_length (r : ToolRegistry) (req : McpRequest)
    (h : r.handlersWellBehaved) : (r.handleToolCall req).length = 1 := by
  cases hx : r.toolCallEntry req with
  | none => simp [ToolRegistry.handleToolCall, hx]
  | some di =>
    obtain ⟨n, hmem⟩ := toolCallEntry_some r req di hx
    obtain ⟨d, impl⟩ := di
    have hb := h (n, d, impl) hmem (getFieldOpt req.params "arguments")
    simp only [ToolRegistry.handleToolCall, hx]
    rcases hb with ⟨h1, h2⟩ | ⟨h1, h2⟩
    · simp only at h1 h2
      rw [h2]
      simpa using h1
    · simp only at h1 h2
      obtain ⟨e, he⟩ := Option.isSome_iff_exists.mp h2
      rw [h1, he]
      rfl

set_option maxHeartbeats 1600000 in
theorem dispatchSwitch_length (collab : CollabHandlers)
    (wsReg httpReg : ToolRegistry) (req : McpRequest) (source : Source)
    (hc : collab.wellBehaved)
    (hw : wsReg.handlersWellBehaved) (hh : httpReg.handlersWellBehaved) :
    (dispatchSwitch collab wsReg httpReg req source).length = 1 := by
  unfold dispatchSwitch
  by_cases h1 : req.method = "initialize"
  · rw [if_pos h1]; rfl
  rw [if_neg h1]
  by_cases h2 : req.method = "tools/list"
  · rw [if_pos h2]; rfl
  rw [if_neg h2]
  by_cases h3 : req.method = "prompts/list"
  · rw [if_pos h3]; rfl
  rw [if_neg h3]
  by_cases h4 : req.method = "ping"
  · rw [if_pos h4]; rfl
  rw [if_neg h4]
  by_cases h5 : req.method = "readFile"
  · rw [if_pos h5]; exact hc.1 req.params
  rw [if_neg h5]
  by_cases h6 : req.method = "writeFile"
  · rw [if_pos h6]; exact hc.2.1 req.params
  rw [if_neg h6]
  by_cases h7 : req.method = "getOpenFiles"
  · rw [if_pos h7]; exact hc.2.2.1 req.params
  rw [if_neg h7]
  by_cases h8 : req.method = "listFiles"
  · rw [if_pos h8]; exact hc.2.2.2.1 req.params
  rw [if_neg h8]
  by_cases h9 : req.method = "getCurrentFile"
  · rw [if_pos h9]; exact hc.2.2.2.2.1 req.params
  rw [if_neg h9]
  by_cases h10 : req.method = "getWorkspaceInfo"
  · rw [if_pos h10]; exact hc.2.2.2.2.2 req.params
  rw [if_neg h10]
  by_cases h11 : req.method = "tools/call"
  · rw [if_pos h11]
    cases source with
    | ws => simpa using handleToolCall_length wsReg req hw
    | http => simpa using handleToolCall_length httpReg req hh
  rw [if_neg h11]
  by_cases h12 : req.method = "resources/list"
  · rw [if_pos h12]; rfl
  rw [if_neg h12]
  rfl

/-- C1 (counterexample): the claim fails as stated.  A well-formed request
envelope with id 1 and method "ide_connected" is consumed by the IDE
sub-handler without any reply: the dispatcher emits zero responses, even
though every collaborator and registry is well behaved. -/
theorem dispatcher_ide_method_no_reply :
    handleRequest
      ⟨fun _ => [.result .null], fun _ => [.result .null],
       fun _ => [.result .null], fun _ => [.result .null],
       fun _ => [.result .null], fun _ => [.result .null]⟩
      ToolRegistry.empty ToolRegistry.empty
      ⟨.num 1, "ide_connected", none⟩ = [] := rfl

/-- C1 (amended): for every well-formed request envelope whose method is
not one of the IDE sub-handler's notification-style methods
("ide_connected", "notifications/initialized"), and provided every
collaborator handler and every registered tool handler replies exactly
once (or throws before replying), the dispatcher invokes the reply
callback exactly once, and both transports' reply closures stamp every
emitted response with the request's own id. -/
theorem dispatcher_replies_once (collab : CollabHandlers)
    (wsReg httpReg : ToolRegistry) (req : McpRequest) (source : Source)
    (hni : isIdeMethod req.method = false)
    (hc : collab.wellBehaved)
    (hw : wsReg.handlersWellBehaved) (hh : httpReg.handlersWellBehaved) :
    (handleRequestGeneric collab wsReg httpReg req source).length = 1 ∧
    (∀ resp ∈ handleRequest collab wsReg httpReg req, resp.id = req.id) ∧
    (∀ resp ∈ handleHttpRequest collab wsReg httpReg req,
      resp.id = req.id) := by
  refine ⟨?_, ?_, ?_⟩
  · unfold handleRequestGeneric
    rw [if_neg (by simp [hni])]
    exact dispatchSwitch_length collab wsReg httpReg req source hc hw hh
  · intro resp hresp
    simp only [handleRequest, List.mem_map] at hresp
    obtain ⟨m, _, rfl⟩ := hresp
    rfl
  · intro resp hresp
    simp only [handleHttpRequest, List.mem_map] at hresp
    obtain ⟨m, _, rfl⟩ := hresp
    rfl

theorem dispatcher_replies_once_witness :
    isIdeMethod "ping" = false ∧
    CollabHandlers.wellBehaved
      ⟨fun _ => [.result .null], fun _ => [.result .null],
       fun _ => [.result .null], fun _ => [.result .null],
       fun _ => [.result .null], fun _ => [.result .null]⟩ ∧
    ToolRegistry.empty.handlersWellBehaved ∧
    ((handleRequestGeneric
        ⟨fun _ => [.result .null], fun _ => [.result .null],
         fun _ => [.result .null], fun _ => [.result .null],
         fun _ => [.result .null], fun _ => [.result .null]⟩
        ToolRegistry.empty ToolRegistry.empty
        ⟨.num 2, "ping", none⟩ .ws).length = 1 ∧
     (∀ resp ∈ handleRequest
         ⟨fun _ => [.result .null], fun _ => [.result .null],
          fun _ => [.result .null], fun _ => [.result .null],
          fun _ => [.result .null], fun _ => [.result .null]⟩
         ToolRegistry.empty ToolRegistry.empty
         ⟨.num 2, "ping", none⟩, resp.id = RId.num 2) ∧
     (∀ resp ∈ handleHttpRequest
         ⟨fun _ => [.result .null], fun _ => [.result .null],
          fun _ => [.result .null], fun _ => [.result .null],
          fun _ => [.result .null], fun _ => [.result .null]⟩
         ToolRegistry.empty ToolRegistry.empty
         ⟨.num 2, "ping", none⟩, resp.id = RId.num 2)) :=
  ⟨by decide,
   ⟨fun _ => rfl, fun _ => rfl, fun _ => rfl, fun _ => rfl, fun _ => rfl,
    fun _ => rfl⟩,
   fun e he _ => absurd he (List.not_mem_nil e),
   dispatcher_replies_once
     ⟨fun _ => [.result .null], fun _ => [.result .null],
      fun _ => [.result .null], fun _ => [.result .null],
      fun _ => [.result .null], fun _ => [.result .null]⟩
     ToolRegistry.empty ToolRegistry.empty
     ⟨.num 2, "ping", none⟩ .ws (by decide)
     ⟨fun _ => rfl, fun _ => rfl, fun _ => rfl, fun _ => rfl, fun _ => rfl,
      fun _ => rfl⟩
     (fun e he _ => absurd he (List.not_mem_nil e))
     (fun e he _ => absurd he (List.not_mem_nil e))⟩

/-! ## Claim C9 -/

/-- C9: a frame whose payload is not valid JSON (`jsonParse raw = none`,
modelling the `JSON.parse` throw caught by `handleMessage`) is silently
dropped: nothing is forwarded to the router, nothing is written back on
the socket, the connection is not closed, and the connected-clients
collection is left exactly as it was. -/
theorem ws_malformed_frame_dropped (jsonParse : String → Option McpRequest)
    (st : WsServerState) (raw : String) (h : jsonParse raw = none) :
    McpServer.handleMessage jsonParse st raw = ⟨st, [], [], false⟩ := by
  simp [McpServer.handleMessage, h]

theorem ws_malformed_frame_dropped_witness :
    (fun _ : String => (none : Option McpRequest)) "not valid json" = none ∧
    McpServer.handleMessage (fun _ => none) ⟨[1, 2]⟩ "not valid json" =
      ⟨⟨[1, 2]⟩, [], [], false⟩ :=
  ⟨rfl, ws_malformed_frame_dropped (fun _ => none) ⟨[1, 2]⟩ "not valid json" rfl⟩

/-! ## Claim C6 -/

/-- C6: the options `McpServer.start` passes to the WebSocket listener
request port 0 (an OS-assigned ephemeral port) but carry NO host
restriction, so the listener is not limited to a loopback interface —
contrary to the spec and to docs/PROTOCOL.md, which require
`host: 'localhost'` / binding to 127.0.0.1 only.  The code at the failing
input (the single `new WebSocketServer({ port: 0 })` call) differs from
the documented options. -/
theorem ws_listen_options_no_host :
    mcpServerListenOptions.port = 0 ∧
    mcpServerListenOptions.host = none ∧
    mcpServerListenOptions ≠ specListenOptions :=
  ⟨rfl, rfl, by decide⟩

/-! ## Claim C5 -/

/-- C5: with the override environment variable set to "/custom" (and a
home directory of "/home/u"), `createLockFilePath` still writes under
`/home/u/.claude/ide`, while the documented resolution
(`getClaudeConfigDir`, as the spec, the `getClaudeIdeDir` doc comment and
the settings UI all promise) yields `/custom/ide`: the lock-file writer
ignores the config-directory resolution entirely. -/
theorem lock_file_path_ignores_config_dir :
    createLockFilePath
      ⟨some "/custom", none, some "/home/u", none, "/home/u", false, none,
        fun _ => false⟩ 8080 = "/home/u/.claude/ide/8080.lock" ∧
    specLockFilePath
      ⟨some "/custom", none, some "/home/u", none, "/home/u", false, none,
        fun _ => false⟩ 8080 = "/custom/ide/8080.lock" ∧
    createLockFilePath
      ⟨some "/custom", none, some "/home/u", none, "/home/u", false, none,
        fun _ => false⟩ 8080 ≠
      specLockFilePath
        ⟨some "/custom", none, some "/home/u", none, "/home/u", false, none,
          fun _ => false⟩ 8080 :=
  ⟨rfl, rfl, by decide⟩

/-! ## Claim C2 -/

/-- C2 (counterexample): with the WebSocket server bound on port 51234 and
the HTTP listener rejecting with the EADDRINUSE listen error,
`McpDualServer.start` re-throws the error instead of returning the
aggregate wsPort/httpPort record: `returned` is the error, not
`.ok (some 51234, none)`.  The WebSocket server remains started. -/
theorem dual_start_portinuse_throws :
    (McpDualServer.start ⟨none, none, none⟩
      ⟨.ok 51234, fun _ => .error ⟨"Error",
        "listen EADDRINUSE: address already in use 127.0.0.1:22360"⟩⟩).wsRunning
      = some 51234 ∧
    (McpDualServer.start ⟨none, none, none⟩
      ⟨.ok 51234, fun _ => .error ⟨"Error",
        "listen EADDRINUSE: address already in use 127.0.0.1:22360"⟩⟩).returned
      = .error ⟨"Error",
        "listen EADDRINUSE: address already in use 127.0.0.1:22360"⟩ ∧
    (McpDualServer.start ⟨none, none, none⟩
      ⟨.ok 51234, fun _ => .error ⟨"Error",
        "listen EADDRINUSE: address already in use 127.0.0.1:22360"⟩⟩).returned
      ≠ .ok (some 51234, none) := by
  have h2 : (McpDualServer.start ⟨none, none, none⟩
      ⟨.ok 51234, fun _ => .error ⟨"Error",
        "listen EADDRINUSE: address already in use 127.0.0.1:22360"⟩⟩).returned
      = .error ⟨"Error",
        "listen EADDRINUSE: address already in use 127.0.0.1:22360"⟩ := by
    rfl
  exact ⟨rfl, h2, by rw [h2]; intro hc; exact Except.noConfusion hc⟩

/-- C2 (amended): when the WebSocket half starts successfully and the HTTP
listener fails to bind, `McpDualServer.start` leaves the WebSocket server
running with its port recorded, and re-throws the HTTP error exactly when
it is port-related (PortInUseError / PermissionError / EADDRINUSE /
EACCES in the message); only a non-port-related HTTP failure yields the
normal aggregate return with `httpPort` undefined. -/
theorem dual_start_http_bind_failure (cfg : DualServerConfig)
    (env : StartEnv) (p : Nat) (e : JsError)
    (hws : cfg.enableWebSocket ≠ some false)
    (hhttp : cfg.enableHttp ≠ some false)
    (hwsok : env.wsStart = .ok p)
    (herr : env.httpStart (effectiveHttpPort cfg) = .error e) :
    (McpDualServer.start cfg env).wsRunning = some p ∧
    (isPortRelatedError e = true →
      (McpDualServer.start cfg env).returned = .error e) ∧
    (isPortRelatedError e = false →
      (McpDualServer.start cfg env).returned = .ok (some p, none)) := by
  by_cases hpe : isPortRelatedError e
  · refine ⟨?_, fun _ => ?_, fun hcon => absurd hpe (by simp [hcon])⟩ <;>
      simp [McpDualServer.start, hws, hhttp, hwsok, herr, hpe]
  · refine ⟨?_, fun hcon => absurd hcon (by simpa using hpe), fun _ => ?_⟩ <;>
      simp [McpDualServer.start, hws, hhttp, hwsok, herr, hpe]

theorem dual_start_http_bind_failure_witness :
    (⟨none, none, some 8080⟩ : DualServerConfig).enableWebSocket ≠
      some false ∧
    (⟨none, none, some 8080⟩ : DualServerConfig).enableHttp ≠ some false ∧
    (⟨.ok 40000, fun _ => .error ⟨"PortInUseError", "port busy"⟩⟩ :
      StartEnv).wsStart = .ok 40000 ∧
    (⟨.ok 40000, fun _ => .error ⟨"PortInUseError", "port busy"⟩⟩ :
      StartEnv).httpStart
        (effectiveHttpPort ⟨none, none, some 8080⟩) =
      .error ⟨"PortInUseError", "port busy"⟩ ∧
    ((McpDualServer.start ⟨none, none, some 8080⟩
        ⟨.ok 40000, fun _ => .error ⟨"PortInUseError", "port busy"⟩⟩).wsRunning
        = some 40000 ∧
     (isPortRelatedError ⟨"PortInUseError", "port busy"⟩ = true →
       (McpDualServer.start ⟨none, none, some 8080⟩
         ⟨.ok 40000, fun _ => .error ⟨"PortInUseError", "port busy"⟩⟩).returned
         = .error ⟨"PortInUseError", "port busy"⟩) ∧
     (isPortRelatedError ⟨"PortInUseError", "port busy"⟩ = false →
       (McpDualServer.start ⟨none, none, some 8080⟩
         ⟨.ok 40000, fun _ => .error ⟨"PortInUseError", "port busy"⟩⟩).returned
         = .ok (some 40000, none))) :=
  ⟨by decide, by decide, rfl, rfl,
   dual_start_http_bind_failure ⟨none, none, some 8080⟩
     ⟨.ok 40000, fun _ => .error ⟨"PortInUseError", "port busy"⟩⟩
     40000 ⟨"PortInUseError", "port busy"⟩
     (by decide) (by decide) rfl rfl⟩

/-! ## Claim C3 -/

/-- C3 (counterexample): a session that opened ("sessA") and then closed
is removed from the session table by the disconnect teardown, so a POST
naming it is answered 404 ("Session not found"), not the claimed 410. -/
theorem post_closed_session_gets_404 :
    (McpHttpServer.handleMessages
      (McpHttpServer.streamDisconnect
        (McpHttpServer.handleSSEConnection ⟨[], [], 0⟩ "text/event-stream"
          "sessA" 100).state "sessA")
      (some "sessA")
      (some (.obj [("id", .num 1), ("method", .str "ping")]))).status
      = 404 ∧
    (McpHttpServer.handleMessages
      (McpHttpServer.streamDisconnect
        (McpHttpServer.handleSSEConnection ⟨[], [], 0⟩ "text/event-stream"
          "sessA" 100).state "sessA")
      (some "sessA")
      (some (.obj [("id", .num 1), ("method", .str "ping")]))).status
      ≠ 410 := by
  have h : (McpHttpServer.handleMessages
      (McpHttpServer.streamDisconnect
        (McpHttpServer.handleSSEConnection ⟨[], [], 0⟩ "text/event-stream"
          "sessA" 100).state "sessA")
      (some "sessA")
      (some (.obj [("id", .num 1), ("method", .str "ping")]))).status
      = 404 := rfl
  exact ⟨h, by rw [h]; decide⟩

/-- C3 (amended): a POST whose session_id is absent from the session
table — whether it never existed or was opened and then closed, since
teardown deletes the session — is rejected 404 with the server state and
all sessions untouched; 410 is returned (again leaving state untouched)
only when the session is still in the table but its SSE stream is gone
and the submission carries at least one request envelope. -/
theorem post_session_resolution (st : HttpState) (sid : String)
    (body : Option JVal) (hsid : sid ≠ "") :
    (mapHas st.sessions sid = false →
      McpHttpServer.handleMessages st (some sid) body = ⟨404, st, [], []⟩) ∧
    (∀ accept now, strIncludes accept "text/event-stream" = true →
      (st.sessions.map Prod.fst).Nodup →
      mapHas (McpHttpServer.streamDisconnect
        (McpHttpServer.handleSSEConnection st accept sid now).state
          sid).sessions sid = false) ∧
    (∀ parsed, body = some parsed →
      mapHas st.sessions sid = true →
      sid ∉ st.activeStreams →
      (bodyMessages parsed).any isRequestEnvelope = true →
      McpHttpServer.handleMessages st (some sid) body = ⟨410, st, [], []⟩) := by
  refine ⟨fun habs => ?_, fun accept now hacc hnd => ?_, ?_⟩
  · simp [McpHttpServer.handleMessages, habs]
  · simp only [McpHttpServer.handleSSEConnection, hacc, Bool.true_eq_false,
      not_false_eq_true, if_false, ite_not]
    rw [if_pos trivial]
    simp only [McpHttpServer.streamDisconnect, mapHas]
    rw [mapGet_mapDelete_self _ sid (nodup_fst_mapSet st.sessions sid now hnd)]
    rfl
  · rintro parsed rfl hses hstream hreq
    simp [McpHttpServer.handleMessages, hsid, hses, hstream, hreq]

theorem post_session_resolution_witness :
    ("ghost" : String) ≠ "" ∧
    (mapHas (⟨[("other", 5)], ["other"], 0⟩ : HttpState).sessions "ghost"
        = false →
      McpHttpServer.handleMessages ⟨[("other", 5)], ["other"], 0⟩
        (some "ghost") (some (.obj [("method", .str "ping")])) =
        ⟨404, ⟨[("other", 5)], ["other"], 0⟩, [], []⟩) ∧
    (∀ accept now, strIncludes accept "text/event-stream" = true →
      ((⟨[("other", 5)], ["other"], 0⟩ : HttpState).sessions.map
        Prod.fst).Nodup →
      mapHas (McpHttpServer.streamDisconnect
        (McpHttpServer.handleSSEConnection ⟨[("other", 5)], ["other"], 0⟩
          accept "ghost" now).state "ghost").sessions "ghost" = false) ∧
    (∀ parsed, (some (.obj [("method", .str "ping")]) : Option JVal)
        = some parsed →
      mapHas (⟨[("other", 5)], ["other"], 0⟩ : HttpState).sessions "ghost"
        = true →
      "ghost" ∉ (⟨[("other", 5)], ["other"], 0⟩ : HttpState).activeStreams →
      (bodyMessages parsed).any isRequestEnvelope = true →
      McpHttpServer.handleMessages ⟨[("other", 5)], ["other"], 0⟩
        (some "ghost") (some (.obj [("method", .str "ping")])) =
        ⟨410, ⟨[("other", 5)], ["other"], 0⟩, [], []⟩) :=
  ⟨by decide,
   (post_session_resolution ⟨[("other", 5)], ["other"], 0⟩ "ghost"
     (some (.obj [("method", .str "ping")])) (by decide)).1,
   (post_session_resolution ⟨[("other", 5)], ["other"], 0⟩ "ghost"
     (some (.obj [("method", .str "ping")])) (by decide)).2.1,
   (post_session_resolution ⟨[("other", 5)], ["other"], 0⟩ "ghost"
     (some (.obj [("method", .str "ping")])) (by decide)).2.2⟩

/-! ## Claim C4 -/

/-- C4 (counterexample): a POST body mixing a notification (method only)
with a request (id and method) dispatches only the request; the
notification envelope is skipped entirely — it is NOT processed, contrary
to the claim that every method-only envelope is processed even alongside
requests. -/
theorem post_mixed_body_skips_notification :
    (McpHttpServer.handleMessages ⟨[("sessA", 0)], ["sessA"], 0⟩
      (some "sessA")
      (some (.arr [.obj [("method", .str "announce")],
                   .obj [("id", .num 1), ("method", .str "ping")]]))).notificationsProcessed
      = [] ∧
    (McpHttpServer.handleMessages ⟨[("sessA", 0)], ["sessA"], 0⟩
      (some "sessA")
      (some (.arr [.obj [("method", .str "announce")],
                   .obj [("id", .num 1), ("method", .str "ping")]]))).requestsDispatched
      = [.obj [("id", .num 1), ("method", .str "ping")]] ∧
    (McpHttpServer.handleMessages ⟨[("sessA", 0)], ["sessA"], 0⟩
      (some "sessA")
      (some (.arr [.obj [("method", .str "announce")],
                   .obj [("id", .num 1), ("method", .str "ping")]]))).status
      = 202 :=
  ⟨rfl, rfl, rfl⟩

/-- C4 (amended): an envelope with a method but no id is processed
immediately and fire-and-forget (through the no-op reply, so no message
event can ever be emitted for it) exactly when the submission contains no
request envelope: then every method-bearing envelope is processed, the
response is 202, and nothing is dispatched toward the stream.  When the
same body also contains a request envelope, the method-only envelopes are
skipped entirely (still no message event for them): only envelopes with a
truthy method and a defined id are dispatched. -/
theorem post_notification_processing (st : HttpState) (sid : String)
    (parsed : JVal) (hsid : sid ≠ "")
    (hses : mapHas st.sessions sid = true) :
    ((bodyMessages parsed).any isRequestEnvelope = false →
      McpHttpServer.handleMessages st (some sid) (some parsed) =
        ⟨202, st,
         (bodyMessages parsed).filter (fun m => truthyField m "method"),
         []⟩) ∧
    ((bodyMessages parsed).any isRequestEnvelope = true →
      sid ∈ st.activeStreams →
      McpHttpServer.handleMessages st (some sid) (some parsed) =
        ⟨202, st, [],
         (bodyMessages parsed).filter
           (fun m => truthyField m "method" && hasField m "id")⟩) := by
  refine ⟨fun hnoreq => ?_, fun hreq hstream => ?_⟩
  · simp [McpHttpServer.handleMessages, hsid, hses, hnoreq]
  · simp [McpHttpServer.handleMessages, hsid, hses, hreq, hstream]

theorem post_notification_processing_witness :
    ("sessB" : String) ≠ "" ∧
    mapHas (⟨[("sessB", 3)], ["sessB"], 0⟩ : HttpState).sessions "sessB"
      = true ∧
    (((bodyMessages (.obj [("method", .str "announce")])).any
        isRequestEnvelope = false →
      McpHttpServer.handleMessages ⟨[("sessB", 3)], ["sessB"], 0⟩
        (some "sessB") (some (.obj [("method", .str "announce")])) =
        ⟨202, ⟨[("sessB", 3)], ["sessB"], 0⟩,
         (bodyMessages (.obj [("method", .str "announce")])).filter
           (fun m => truthyField m "method"), []⟩) ∧
     ((bodyMessages (.obj [("method", .str "announce")])).any
        isRequestEnvelope = true →
      "sessB" ∈ (⟨[("sessB", 3)], ["sessB"], 0⟩ : HttpState).activeStreams →
      McpHttpServer.handleMessages ⟨[("sessB", 3)], ["sessB"], 0⟩
        (some "sessB") (some (.obj [("method", .str "announce")])) =
        ⟨202, ⟨[("sessB", 3)], ["sessB"], 0⟩, [],
         (bodyMessages (.obj [("method", .str "announce")])).filter
           (fun m => truthyField m "method" && hasField m "id")⟩)) :=
  ⟨by decide, rfl,
   post_notification_processing ⟨[("sessB", 3)], ["sessB"], 0⟩ "sessB"
     (.obj [("method", .str "announce")]) (by decide) rfl⟩

end ObsidianMcp
